import Mathlib

/-!
Verification of the streaming-completion transport layer, the conversation
reconciliation layer, the model-catalog fetch and the local chat storage of
the whisper-open-chat repository, against its natural-language specification.

The TypeScript sources are shallowly embedded: JavaScript strings become
Lean `String` (lists of characters; UTF-16 subtleties do not arise in any
statement below), `JSON.parse` becomes an executable JSON parser over an
inductive value type, fetch responses become explicit structures, callback
invocations become an explicit event trace, and React component state is
passed explicitly.
-/

/-! ### JSON values and `JSON.parse`

`streamCompletion` (src/lib/api.ts) calls `JSON.parse` on each `data:`
payload.  We embed JSON values as an inductive type and `JSON.parse` as an
executable parser.  Numeric literals are kept as their source text: no
claim inspects a numeric value.  Duplicate object keys resolve to the last
occurrence, as in JavaScript. -/

inductive Json where
  | null
  | bool (b : Bool)
  | num (lit : String)
  | str (s : String)
  | arr (elems : List Json)
  | obj (fields : List (String × Json))

/-- The character `\x7b` (opening curly brace). -/
def lcurly : Char := Char.ofNat 123

/-- The character `\x7d` (closing curly brace). -/
def rcurly : Char := Char.ofNat 125

/-- JSON insignificant whitespace (RFC 8259: space, tab, newline, return). -/
def isJsonWs (c : Char) : Bool :=
  c = ' ' || c = '\t' || c = '\n' || c = '\r'

/-- Drop leading JSON whitespace. -/
def skipWs : List Char → List Char
  | [] => []
  | c :: cs => if isJsonWs c then skipWs cs else c :: cs

/-- Value of a hexadecimal digit, if any. -/
def hexVal (c : Char) : Option Nat :=
  if '0' ≤ c ∧ c ≤ '9' then some (c.toNat - '0'.toNat)
  else if 'a' ≤ c ∧ c ≤ 'f' then some (c.toNat - 'a'.toNat + 10)
  else if 'A' ≤ c ∧ c ≤ 'F' then some (c.toNat - 'A'.toNat + 10)
  else none

/-- Parse exactly four hex digits (the `\uXXXX` escape). -/
def parseHex4 : List Char → Option (Nat × List Char)
  | a :: b :: c :: d :: rest =>
    match hexVal a, hexVal b, hexVal c, hexVal d with
    | some x, some y, some z, some w => some (((x * 16 + y) * 16 + z) * 16 + w, rest)
    | _, _, _, _ => none
  | _ => none

/-- Parse the body of a JSON string after the opening quote; returns the
decoded characters and the input remaining after the closing quote.
Unpaired `\u` surrogates are kept as single characters. -/
def parseStrBody : Nat → List Char → Option (List Char × List Char)
  | 0, _ => none
  | _ + 1, [] => none
  | fuel + 1, c :: cs =>
    if c = '"' then some ([], cs)
    else if c = '\\' then
      match cs with
      | [] => none
      | e :: cs2 =>
        let esc : Option (Char × List Char) :=
          if e = '"' then some ('"', cs2)
          else if e = '\\' then some ('\\', cs2)
          else if e = '/' then some ('/', cs2)
          else if e = 'b' then some (Char.ofNat 8, cs2)
          else if e = 'f' then some (Char.ofNat 12, cs2)
          else if e = 'n' then some ('\n', cs2)
          else if e = 'r' then some ('\r', cs2)
          else if e = 't' then some ('\t', cs2)
          else if e = 'u' then
            match parseHex4 cs2 with
            | some (n, cs3) => some (Char.ofNat n, cs3)
            | none => none
          else none
        match esc with
        | some (ch, cs3) =>
          match parseStrBody fuel cs3 with
          | some (body, rest) => some (ch :: body, rest)
          | none => none
        | none => none
    else if c.toNat < 32 then none
    else
      match parseStrBody fuel cs with
      | some (body, rest) => some (c :: body, rest)
      | none => none

/-- Is this an ASCII digit? -/
def isDigitCh (c : Char) : Bool := '0' ≤ c ∧ c ≤ '9'

/-- Longest digit run at the front of the input. -/
def spanDigits : List Char → List Char × List Char
  | [] => ([], [])
  | c :: cs =>
    if isDigitCh c then
      let (ds, rest) := spanDigits cs
      (c :: ds, rest)
    else ([], c :: cs)

/-- Parse the integer part of a JSON number (`0` or a nonzero digit followed
by digits), returning its text. -/
def parseIntPart : List Char → Option (List Char × List Char)
  | [] => none
  | c :: cs =>
    if c = '0' then some ([c], cs)
    else if isDigitCh c then
      let (ds, rest) := spanDigits cs
      some (c :: ds, rest)
    else none

/-- Parse a JSON numeric literal (RFC 8259 grammar), returning its text. -/
def parseNumLit (s : List Char) : Option (List Char × List Char) :=
  let (sign, s1) :=
    match s with
    | '-' :: rest => (['-'], rest)
    | _ => (([] : List Char), s)
  match parseIntPart s1 with
  | none => none
  | some (ip, s2) =>
    let (frac, s3) :=
      match s2 with
      | '.' :: rest =>
        match spanDigits rest with
        | ([], _) => (none, s2)
        | (ds, rest2) => (some ('.' :: ds), rest2)
      | _ => (none, s2)
    match frac, s2 with
    | none, '.' :: _ => none
    | _, _ =>
      let fracCs := frac.getD []
      let expParse : Option (List Char × List Char) :=
        match s3 with
        | e :: rest =>
          if e = 'e' ∨ e = 'E' then
            let (es, rest2) :=
              match rest with
              | '+' :: r => (['+'], r)
              | '-' :: r => (['-'], r)
              | _ => (([] : List Char), rest)
            match spanDigits rest2 with
            | ([], _) => none
            | (ds, rest3) => some (e :: (es ++ ds), rest3)
          else some ([], s3)
        | [] => some ([], s3)
      match expParse with
      | none => none
      | some (ec, s4) => some (sign ++ ip ++ fracCs ++ ec, s4)

mutual

/-- Parse one JSON value; fuel bounds the recursion depth. -/
def parseVal : Nat → List Char → Option (Json × List Char)
  | 0, _ => none
  | fuel + 1, s =>
    match skipWs s with
    | [] => none
    | c :: cs =>
      if c = 'n' then
        match cs with
        | 'u' :: 'l' :: 'l' :: r => some (.null, r)
        | _ => none
      else if c = 't' then
        match cs with
        | 'r' :: 'u' :: 'e' :: r => some (.bool true, r)
        | _ => none
      else if c = 'f' then
        match cs with
        | 'a' :: 'l' :: 's' :: 'e' :: r => some (.bool false, r)
        | _ => none
      else if c = '"' then
        match parseStrBody (cs.length + 1) cs with
        | some (body, rest) => some (.str ⟨body⟩, rest)
        | none => none
      else if c = '[' then
        match skipWs cs with
        | ']' :: r => some (.arr [], r)
        | _ =>
          match parseElems fuel cs with
          | some (vs, rest) => some (.arr vs, rest)
          | none => none
      else if c = lcurly then
        match skipWs cs with
        | d :: r =>
          if d = rcurly then some (.obj [], r)
          else
            match parseFields fuel cs with
            | some (fs, rest) => some (.obj fs, rest)
            | none => none
        | [] => none
      else
        match parseNumLit (c :: cs) with
        | some (lit, rest) => some (.num ⟨lit⟩, rest)
        | none => none

/-- Parse a nonempty comma-separated list of values followed by `]`. -/
def parseElems : Nat → List Char → Option (List Json × List Char)
  | 0, _ => none
  | fuel + 1, s =>
    match parseVal fuel s with
    | none => none
    | some (v, rest) =>
      match skipWs rest with
      | ',' :: rest2 =>
        match parseElems fuel rest2 with
        | some (vs, rest3) => some (v :: vs, rest3)
        | none => none
      | ']' :: rest2 => some ([v], rest2)
      | _ => none

/-- Parse a nonempty comma-separated list of `"key": value` pairs followed
by a closing brace. -/
def parseFields : Nat → List Char → Option (List (String × Json) × List Char)
  | 0, _ => none
  | fuel + 1, s =>
    match skipWs s with
    | c :: cs =>
      if c = '"' then
        match parseStrBody (cs.length + 1) cs with
        | some (key, rest) =>
          match skipWs rest with
          | ':' :: rest2 =>
            match parseVal fuel rest2 with
            | none => none
            | some (v, rest3) =>
              match skipWs rest3 with
              | ',' :: rest4 =>
                match parseFields fuel rest4 with
                | some (fs, rest5) => some ((⟨key⟩, v) :: fs, rest5)
                | none => none
              | d :: rest4 =>
                if d = rcurly then some ([(⟨key⟩, v)], rest4) else none
              | [] => none
          | _ => none
        | none => none
      else none
    | [] => none

end

/-- `JSON.parse`: a single JSON value spanning the whole input (surrounding
whitespace allowed), or failure. -/
def parseJson (s : String) : Option Json :=
  match parseVal (s.data.length + 1) s.data with
  | some (j, rest) => if skipWs rest = [] then some j else none
  | none => none

example : parseJson "null" = some Json.null := rfl
example : parseJson "[1, 2]" = some (Json.arr [Json.num "1", Json.num "2"]) := rfl
example : parseJson "\x7b\"a\": \"b\"\x7d" = some (Json.obj [("a", Json.str "b")]) := rfl
example : parseJson "[DONE]" = none := rfl
example : parseJson "\x7b\"choices\":[\x7b\"delta\":\x7b\"content\":\"hi\"\x7d\x7d]\x7d"
    = some (Json.obj [("choices",
        Json.arr [Json.obj [("delta", Json.obj [("content", Json.str "hi")])]])]) := rfl
example : parseJson "\x7b\"choices\":[\x7b\"delta\"" = none := rfl

/-! ### Field access and delta extraction

`parsed.choices?.[0]?.delta?.content || ""` from src/lib/api.ts line 94.
Property access resolves duplicate keys to the last occurrence, as
`JSON.parse` does.  A `content` value that is not a string yields `""`
here; the claims under verification only concern string deltas (a JSON
document whose delta `content` is a non-string truthy value is outside
every claim's hypotheses). -/

/-- Look up an object field; the last binding wins, as in `JSON.parse`. -/
def getField : List (String × Json) → String → Option Json
  | [], _ => none
  | (k, v) :: rest, key =>
    match getField rest key with
    | some r => some r
    | none => if k = key then some v else none

/-- `parsed.choices?.[0]?.delta?.content || ""`: the first choice's delta
content when it is a string, otherwise the empty string. -/
def extractDelta (j : Json) : String :=
  match j with
  | .obj fields =>
    match getField fields "choices" with
    | some (.arr (c0 :: _)) =>
      match c0 with
      | .obj cf =>
        match getField cf "delta" with
        | some (.obj df) =>
          match getField df "content" with
          | some (.str s) => s
          | _ => ""
        | _ => ""
      | _ => ""
    | _ => ""
  | _ => ""

/-! ### Transport layer: `streamCompletion` (src/lib/api.ts lines 33-108)

The fetch response is a structure: `ok`/`status`/`bodyText` model the HTTP
status line and error body, `body = some reads` models the readable stream
as the list of text fragments successive `reader.read()` calls yield
(already UTF-8-decoded, as `TextDecoder.decode` produces them), and
`body = none` models a null response body.

Callback invocations are recorded as an event trace.  The supplied
`onChunk` cannot alter control flow even if it throws: its call site is the
last statement inside the per-line `try`, whose `catch` swallows the
exception.  A throwing `onFinish`, however, escapes to the outermost
`catch`; the `finishRaises` argument models that behaviour (`none`: the
callback returns normally, `some e`: it throws `e`).  Errors are modelled
by their message strings. -/

/-- One observable callback invocation of `streamCompletion`. -/
inductive Ev where
  | chunk (s : String)
  | finish
  | error (msg : String)
deriving DecidableEq

/-- The completions HTTP response, as the transport layer observes it. -/
structure StreamResponse where
  ok : Bool
  status : Nat
  bodyText : String
  body : Option (List String)

/-- JavaScript `chunk.split("\n")` (keeps empty pieces). -/
def splitOnNl : List Char → List (List Char)
  | [] => [[]]
  | c :: cs =>
    let r := splitOnNl cs
    if c = '\n' then [] :: r
    else
      match r with
      | h :: t => (c :: h) :: t
      | [] => [[c]]

/-- Whitespace stripped by `String.prototype.trim`; only the ASCII space
characters can occur around the protocol's `data:` lines. -/
def isTrimWs (c : Char) : Bool :=
  c = ' ' || c = '\t' || c = '\n' || c = '\r' ||
  c = Char.ofNat 11 || c = Char.ofNat 12

/-- JavaScript `line.trim()`. -/
def jsTrim (s : String) : String :=
  ⟨((s.data.dropWhile isTrimWs).reverse.dropWhile isTrimWs).reverse⟩

/-- Lines one decoded read fragment contributes:
`chunk.split("\n").filter(line => line.trim() !== "")`
(api.ts lines 80-82). -/
def linesOf (chunkStr : String) : List String :=
  ((splitOnNl chunkStr.data).map (fun cs => (⟨cs⟩ : String))).filter
    (fun l => jsTrim l ≠ "")

/-- The event-line prefix `"data: "` (six characters). -/
def dataMark : String := "data: "

/-- Processing of one non-blank line (api.ts lines 84-101): lines without
the `data: ` prefix are ignored, the `[DONE]` sentinel is ignored, an
unparseable payload is logged and skipped, and a parsed payload yields its
delta exactly when that delta is non-empty. -/
def processLine (line : String) : Option String :=
  if dataMark.data.isPrefixOf line.data then
    let payload : String := ⟨line.data.drop 6⟩
    if payload = "[DONE]" then none
    else
      match parseJson payload with
      | some j =>
        let content := extractDelta j
        if content = "" then none else some content
      | none => none
  else none

/-- All `onChunk` events one read fragment produces, in line order. -/
def processRead (chunkStr : String) : List Ev :=
  ((linesOf chunkStr).filterMap processLine).map Ev.chunk

/-- The read loop (api.ts lines 72-103).  Returns the events of the loop
and the exception escaping it, which can only come from `onFinish`. -/
def readLoop (finishRaises : Option String) : List String → List Ev × Option String
  | [] =>
    match finishRaises with
    | none => ([Ev.finish], none)
    | some e => ([Ev.finish], some e)
  | r :: rs =>
    let tail := readLoop finishRaises rs
    (processRead r ++ tail.1, tail.2)

/-- `streamCompletion`, from the arrival of the response onward: the trace
of callback invocations together with the outcome the caller observes
(`Except.error e` when the function re-raises `e`). -/
def streamCompletion (resp : StreamResponse) (finishRaises : Option String) :
    List Ev × Except String Unit :=
  if resp.ok then
    match resp.body with
    | none =>
      ([Ev.error "Response body is null"], Except.error "Response body is null")
    | some reads =>
      match readLoop finishRaises reads with
      | (evs, none) => (evs, Except.ok ())
      | (evs, some e) => (evs ++ [Ev.error e], Except.error e)
  else
    let msg := "API error: " ++ toString resp.status ++ " " ++ resp.bodyText
    ([Ev.error msg], Except.error msg)

/-- A well-formed event line in the sense of the specification: the
`data: ` prefix followed by valid JSON whose first-choice delta content is
the non-empty string `c`. -/
def WfDataLine (line c : String) : Prop :=
  ∃ payload j,
    line = dataMark ++ payload ∧ parseJson payload = some j ∧
    extractDelta j = c ∧ c ≠ ""

/-- `true` exactly on `Ev.chunk` events. -/
def isChunkEv : Ev → Bool
  | .chunk _ => true
  | _ => false

/-- `true` exactly on the `Ev.finish` event. -/
def isFinishEv : Ev → Bool
  | .finish => true
  | _ => false

/-- `true` exactly on `Ev.error` events. -/
def isErrorEv : Ev → Bool
  | .error _ => true
  | _ => false

example : processLine "data: \x7b\"choices\":[\x7b\"delta\":\x7b\"content\":\"hi\"\x7d\x7d]\x7d" = some "hi" := rfl
example : processLine "data: [DONE]" = none := rfl
example : processLine ": comment" = none := rfl
example : processLine "data: \x7b\"choices\":[\x7b\"delta\":\x7b\"content\":\"\"\x7d\x7d]\x7d" = none := rfl
example : streamCompletion ⟨true, 200, "", some ["data: \x7b\"choices\":[\x7b\"delta\":\x7b\"content\":\"hi\"\x7d\x7d]\x7d\n\ndata: [DONE]\n"]⟩ none
    = ([Ev.chunk "hi", Ev.finish], Except.ok ()) := rfl

/-! ### The chat data model (src/types/chat.ts)

`Attachment.file` (a DOM `File` handle) never reaches the serialization or
storage code under verification and is omitted.  Timestamps are naturals.
-/

/-- Message roles. -/
inductive Role where
  | user
  | assistant
  | system
deriving DecidableEq

/-- An attachment (src/types/chat.ts).  `content` is the optional extracted
text. -/
structure Attachment where
  id : String
  name : String
  url : Option String
  type : String
  size : Nat
  content : Option String
deriving DecidableEq

/-- A chat message (src/types/chat.ts). -/
structure Message where
  id : String
  role : Role
  content : String
  timestamp : Nat
  attachments : Option (List Attachment)
deriving DecidableEq

/-- A conversation (src/types/chat.ts). -/
structure Chat where
  id : String
  title : String
  messages : List Message
  model : String
  createdAt : Nat
  updatedAt : Nat
deriving DecidableEq

/-- A catalog model entry (src/types/chat.ts). -/
structure Model where
  id : String
  name : String
  maxTokens : Nat
deriving DecidableEq

/-! ### Request serialization (src/lib/api.ts lines 50-57)

The POST body is `{model, messages: messages.map(msg => ({role: msg.role,
content: msg.content})), stream: true}`. -/

/-- One serialized `{role, content}` record of the POST body. -/
structure ApiMessage where
  role : Role
  content : String
deriving DecidableEq

/-- `messages.map(msg => ({role: msg.role, content: msg.content}))`. -/
def serializeMessages (messages : List Message) : List ApiMessage :=
  messages.map (fun msg => { role := msg.role, content := msg.content })

/-- The full POST body of the completions request. -/
structure CompletionRequest where
  model : String
  messages : List ApiMessage
  stream : Bool
deriving DecidableEq

/-- The body of `fetch(".../chat/completions", ...)`. -/
def buildCompletionRequest (messages : List Message) (modelId : String) :
    CompletionRequest :=
  { model := modelId, messages := serializeMessages messages, stream := true }

/-! ### Model catalog fetch: `fetchModels` (src/lib/api.ts lines 6-31)

A remote record is `{id, name?, context_length?}`.  The source maps it with
JavaScript `||`, whose left operand also loses against the default when it
is present but falsy (`""` for strings, `0` for numbers). -/

/-- One record of the models-listing response. -/
structure RemoteModel where
  id : String
  name : Option String
  context_length : Option Nat
deriving DecidableEq

/-- The models-listing HTTP response. -/
structure ModelsResponse where
  ok : Bool
  statusText : String
  data : List RemoteModel
deriving DecidableEq

/-- JavaScript `a || d` for an optional string `a`: `undefined` and `""`
are falsy. -/
def jsOrStr (a : Option String) (d : String) : String :=
  match a with
  | none => d
  | some s => if s = "" then d else s

/-- JavaScript `a || d` for an optional number `a`: `undefined` and `0` are
falsy. -/
def jsOrNat (a : Option Nat) (d : Nat) : Nat :=
  match a with
  | none => d
  | some n => if n = 0 then d else n

/-- `{id: model.id, name: model.name || model.id, maxTokens:
model.context_length || 4096}` (api.ts lines 22-26). -/
def mapRemoteModel (m : RemoteModel) : Model :=
  { id := m.id, name := jsOrStr m.name m.id, maxTokens := jsOrNat m.context_length 4096 }

/-- `fetchModels`: throws on a non-ok status, otherwise maps every record. -/
def fetchModels (r : ModelsResponse) : Except String (List Model) :=
  if r.ok then Except.ok (r.data.map mapRemoteModel)
  else Except.error ("Failed to fetch models: " ++ r.statusText)

/-! ### Reconciliation layer (src/components/chat/Chat.tsx)

`handleSendMessage` appends the user message and an empty placeholder
assistant message, then streams.  The error path (lines 382-401) and the
commit/title path (lines 402-435, 443-460) are embedded below.  React
state is passed explicitly; persistence outcomes are inputs. -/

/-- The fixed apology string of the error path. -/
def apologyText : String :=
  "I\x27m sorry, I encountered an error while generating a response."

/-- Outcome of one database insert. -/
inductive DbResult where
  | ok (msgId : String)
  | fail (e : String)
deriving DecidableEq

/-- `saveAssistantMessage` (Chat.tsx lines 247-289): on a failed insert the
inner handler toasts and re-throws, the outer `catch` toasts again and
returns normally.  The result is the toast list and the exception the
caller observes — provably always `none`. -/
def saveAssistantMessage (db : DbResult) : List String × Option String :=
  match db with
  | .ok _ => ([], none)
  | .fail e =>
    (["Failed to save response: " ++ e, "Failed to save response to database"], none)

/-- `updatedChat` (Chat.tsx lines 355-359): the conversation with the user
message and the empty assistant placeholder appended. -/
def appendTurn (chat : Chat) (userMessage assistantMessage : Message) (now : Nat) : Chat :=
  { chat with
    messages := chat.messages ++ [userMessage, assistantMessage]
    updatedAt := now }

/-- `updatedMessages[i] = {...updatedMessages[i], content: c}` for an
in-range index; the source only uses `messages.length - 1`, which is
always in range there. -/
def overwriteContentAt (ms : List Message) (i : Nat) (c : String) : List Message :=
  match ms.get? i with
  | some m => ms.set i { m with content := c }
  | none => ms

/-- What the `onError` handler leaves behind, together with the generating
flag after `streamCompletion`'s re-raise reaches the outer catch of
`handleSendMessage`. -/
structure ErrorOutcome where
  chat : Chat
  toasts : List String
  reported : Option String
  isGenerating : Bool
deriving DecidableEq

/-- The error path (Chat.tsx lines 382-401 and 437-440): toast, overwrite
the last message's content with the apology, persist it best-effort
(`db` is that insert's outcome), and — once the re-raised error reaches
the outer catch — clear the generating flag.  `reported` is what the
persistence attempt re-raises to this path. -/
def handleStreamError (updatedChat : Chat) (db : DbResult) : ErrorOutcome :=
  let save := saveAssistantMessage db
  { chat := { updatedChat with
      messages :=
        overwriteContentAt updatedChat.messages
          (updatedChat.messages.length - 1) apologyText }
    toasts := "Failed to generate response" :: save.1
    reported := save.2
    isGenerating := false }

/-- `updateChatTitle` (Chat.tsx lines 443-460): the derived title. -/
def deriveTitle (content : String) : String :=
  if content.length > 30 then (⟨content.data.take 30⟩ : String) ++ "..." else content

/-- The title update the commit step performs (Chat.tsx lines 425-428):
`if (chat.messages.length === 0) updateChatTitle(content)`, where
`chat.messages` is the conversation as it was at submission time. -/
def commitTitleAction (priorMessages : List Message) (content : String) : Option String :=
  if priorMessages.length = 0 then some (deriveTitle content) else none

/-! ### The two streaming-commit implementations (claim C2)

`setCurrentMessage(prev => prev + chunk)` runs each functional update
against the latest React state, so after `setCurrentMessage('')` and the
chunk updates the state equals the concatenation of the chunks.  But the
`onFinish` closure in Chat.tsx (lines 402-435) reads the plain `const`
binding `currentMessage` captured from the render in which
`handleSendMessage` was created; React never mutates that binding, so the
commit uses the captured value, not the accumulated state.  The ChatLayout
variant (src/unnamed/part_006, lines 210-281) instead accumulates a local
`fullResponse` variable (`fullResponse += chunk`) and commits that. -/

/-- Concatenation of the delivered chunks in delivery order. -/
def joinChunks (chunks : List String) : String :=
  chunks.foldl (fun acc c => acc ++ c) ""

/-- Chat.tsx session: (React `currentMessage` state after the stream,
content committed by `onFinish`).  `captured` is the value of the
`currentMessage` binding in the render that created the closures. -/
def tsxStreamOutcome (captured : String) (chunks : List String) : String × String :=
  (joinChunks chunks, captured)

/-- ChatLayout (part_006) session: `onFinish` commits the locally
accumulated `fullResponse`. -/
def layoutCommittedContent (chunks : List String) : String :=
  joinChunks chunks

/-! ### Local chat storage (src/lib/storage.ts lines 35-58)

`localStorage` holds the JSON-serialized chat list; `getChats` parses it
back.  The store is modelled as the chat list itself (the JSON round trip
is identity on the records involved).  `saveChat` replaces the entry at
`findIndex(c => c.id === chat.id)` when one exists and pushes otherwise. -/

/-- `saveChat` (storage.ts lines 35-46) acting on the stored list. -/
def saveChat (c : Chat) (chats : List Chat) : List Chat :=
  match chats.findIdx? (fun x => x.id == c.id) with
  | some i => chats.set i c
  | none => chats ++ [c]

/-! ### Transport-layer lemmas -/

theorem isPrefixOf_append_self (l t : List Char) : l.isPrefixOf (l ++ t) = true := by
  simp

theorem processLine_data (p : String) :
    processLine (dataMark ++ p) =
      (if p = "[DONE]" then none
       else
         match parseJson p with
         | some j => if extractDelta j = "" then none else some (extractDelta j)
         | none => none) := by
  have hpre : dataMark.data.isPrefixOf (dataMark ++ p).data = true := by
    rw [String.data_append]
    exact isPrefixOf_append_self _ _
  have hdrop : (⟨(dataMark ++ p).data.drop 6⟩ : String) = p := by
    rw [String.data_append, List.drop_left' (by rfl)]
  simp only [processLine, hpre, if_true, hdrop]

theorem processLine_wf {line c : String} (h : WfDataLine line c) :
    processLine line = some c := by
  obtain ⟨p, j, hline, hparse, hdelta, hne⟩ := h
  subst hline
  rw [processLine_data]
  have hdone : p ≠ "[DONE]" := by
    intro hp
    rw [hp] at hparse
    exact Option.noConfusion ((show parseJson "[DONE]" = none from rfl).symm.trans hparse)
  rw [if_neg hdone, hparse]
  show (if extractDelta j = "" then none else some (extractDelta j)) = some c
  rw [hdelta, if_neg hne]

theorem processLine_badParse {bad p : String} (hbad : bad = dataMark ++ p)
    (hparse : parseJson p = none) : processLine bad = none := by
  rw [hbad, processLine_data]
  by_cases hd : p = "[DONE]" <;> simp [hd, hparse]

theorem filterMap_wf {ls cs : List String} (h : List.Forall₂ WfDataLine ls cs) :
    ls.filterMap processLine = cs := by
  induction h with
  | nil => rfl
  | cons hxy _ ih => simp [List.filterMap_cons, processLine_wf hxy, ih]

theorem readLoop_spec (fb : Option String) (reads : List String) :
    readLoop fb reads
      = ((((reads.map linesOf).flatten).filterMap processLine).map Ev.chunk ++ [Ev.finish], fb) := by
  induction reads with
  | nil => cases fb <;> rfl
  | cons r rs ih => simp [readLoop, processRead, ih, List.filterMap_append]

theorem streamCompletion_ok_none (st : Nat) (bt : String) (reads : List String) :
    streamCompletion ⟨true, st, bt, some reads⟩ none
      = ((((reads.map linesOf).flatten).filterMap processLine).map Ev.chunk ++ [Ev.finish],
         Except.ok ()) := by
  simp only [streamCompletion, readLoop_spec, if_true]

theorem countP_map_chunk (p : Ev → Bool) (hp : ∀ s, p (Ev.chunk s) = false)
    (l : List String) : (l.map Ev.chunk).countP p = 0 := by
  induction l with
  | nil => rfl
  | cons x xs ih => simp [List.countP_cons, hp, ih]

/-! ### Claim C1 -/

/-- First read fragment of the C1 counterexample: the front half of a
single well-formed `data:` line. -/
def cexRead1 : String := "data: \x7b\"choices\":[\x7b\"delta\""

/-- Second read fragment of the C1 counterexample: the back half of the
same line. -/
def cexRead2 : String := ":\x7b\"content\":\"hi\"\x7d\x7d]\x7d"

/-- The JSON payload carried by `cexRead1 ++ cexRead2`. -/
def cexPayload : String := "\x7b\"choices\":[\x7b\"delta\":\x7b\"content\":\"hi\"\x7d\x7d]\x7d"

/-- The parsed form of `cexPayload`. -/
def cexJson : Json :=
  Json.obj [("choices", Json.arr [Json.obj [("delta", Json.obj [("content", Json.str "hi")])]])]

/-- Claim C1 (as stated) is false: the claim quantifies over every
arrangement of read boundaries, but `streamCompletion` splits each read
fragment into lines separately (api.ts line 80), so a read boundary in the
middle of a line breaks its JSON payload.  The byte stream
`cexRead1 ++ cexRead2` consists of exactly one well-formed `data:` line
whose delta is `"hi"` (N = 1), yet delivered as two reads it produces no
`onChunk` call at all: the trace is `[Ev.finish]`. -/
theorem c1_counterexample :
    cexRead1 ++ cexRead2 = dataMark ++ cexPayload ∧
    linesOf (cexRead1 ++ cexRead2) = [cexRead1 ++ cexRead2] ∧
    parseJson cexPayload = some cexJson ∧
    extractDelta cexJson = "hi" ∧
    streamCompletion ⟨true, 200, "", some [cexRead1, cexRead2]⟩ none
      = ([Ev.finish], Except.ok ()) :=
  ⟨rfl, rfl, rfl, rfl, rfl⟩

/-- The whole byte stream, as the concatenation of the read fragments. -/
def joinReads (reads : List String) : String :=
  reads.foldl (fun a b => a ++ b) ""

/-- Claim C1, amended: the conclusion holds provided the read boundaries
align with line boundaries — precisely, provided splitting the whole byte
stream into lines gives the same lines as splitting each read fragment
separately.  Then for a stream whose lines are N well-formed `data:` lines
with deltas `cs`, the callback trace is exactly the N chunks in line
order followed by one `onFinish`, with no `onError`. -/
theorem c1_amended (reads cs : List String) (st : Nat) (bt : String)
    (halign : linesOf (joinReads reads) = (reads.map linesOf).flatten)
    (hwf : List.Forall₂ WfDataLine (linesOf (joinReads reads)) cs) :
    streamCompletion ⟨true, st, bt, some reads⟩ none
      = (cs.map Ev.chunk ++ [Ev.finish], Except.ok ()) := by
  rw [halign] at hwf
  rw [streamCompletion_ok_none, filterMap_wf hwf]

/-- A single read fragment holding one complete well-formed line. -/
def witRead : String := "data: " ++ cexPayload ++ "\n"

/-- Witness for the amended claim C1 at a concrete aligned stream. -/
theorem c1_amended_witness :
    streamCompletion ⟨true, 200, "", some [witRead]⟩ none
      = ([Ev.chunk "hi", Ev.finish], Except.ok ()) := by
  have hwf : List.Forall₂ WfDataLine (linesOf (joinReads [witRead])) ["hi"] := by
    have hl : linesOf (joinReads [witRead]) = [dataMark ++ cexPayload] := rfl
    rw [hl]
    exact List.Forall₂.cons ⟨cexPayload, cexJson, rfl, rfl, rfl, by decide⟩ List.Forall₂.nil
  exact c1_amended [witRead] ["hi"] 200 "" rfl hwf

/-! ### Claim C4 -/

/-- Claim C4: a non-success HTTP status yields exactly one `onError`
carrying the status code and the body text, and no `onChunk` or
`onFinish`, whatever the body stream and callback behaviour would have
been. -/
theorem c4_nonSuccessStatus (st : Nat) (bt : String) (body : Option (List String))
    (fb : Option String) :
    streamCompletion ⟨false, st, bt, body⟩ fb
      = ([Ev.error ("API error: " ++ toString st ++ " " ++ bt)],
         Except.error ("API error: " ++ toString st ++ " " ++ bt)) ∧
    (streamCompletion ⟨false, st, bt, body⟩ fb).1.countP isErrorEv = 1 ∧
    (streamCompletion ⟨false, st, bt, body⟩ fb).1.countP isChunkEv = 0 ∧
    (streamCompletion ⟨false, st, bt, body⟩ fb).1.countP isFinishEv = 0 :=
  ⟨rfl, rfl, rfl, rfl⟩

/-! ### Claim C5 -/

/-- Claim C5: one `data:` line with an unparseable payload among otherwise
well-formed lines is skipped, every other chunk is delivered in order with
no duplicate, and `onFinish` still fires.  (Read boundaries aligned with
line boundaries, as in the amended claim C1; the claim's stream is given
by its lines.) -/
theorem c5_skipMalformed (reads pre post cs1 cs2 : List String) (bad p : String)
    (st : Nat) (bt : String)
    (hjoin : (reads.map linesOf).flatten = pre ++ bad :: post)
    (hbad : bad = dataMark ++ p) (hparse : parseJson p = none)
    (h1 : List.Forall₂ WfDataLine pre cs1) (h2 : List.Forall₂ WfDataLine post cs2) :
    streamCompletion ⟨true, st, bt, some reads⟩ none
      = ((cs1 ++ cs2).map Ev.chunk ++ [Ev.finish], Except.ok ()) := by
  rw [streamCompletion_ok_none, hjoin, List.filterMap_append, filterMap_wf h1,
    List.filterMap_cons, processLine_badParse hbad hparse, filterMap_wf h2]

/-- The payload of the C5 witness's well-formed first line. -/
def c5PayloadA : String := "\x7b\"choices\":[\x7b\"delta\":\x7b\"content\":\"A\"\x7d\x7d]\x7d"

/-- The payload of the C5 witness's well-formed last line. -/
def c5PayloadB : String := "\x7b\"choices\":[\x7b\"delta\":\x7b\"content\":\"B\"\x7d\x7d]\x7d"

/-- The parsed form of `c5PayloadA`. -/
def c5JsonA : Json :=
  Json.obj [("choices", Json.arr [Json.obj [("delta", Json.obj [("content", Json.str "A")])]])]

/-- The parsed form of `c5PayloadB`. -/
def c5JsonB : Json :=
  Json.obj [("choices", Json.arr [Json.obj [("delta", Json.obj [("content", Json.str "B")])]])]

/-- A read fragment with a malformed `data:` line between two well-formed
ones. -/
def c5Read : String :=
  "data: " ++ c5PayloadA ++ "\n" ++ "data: \x7bnotjson\n" ++ "data: " ++ c5PayloadB ++ "\n"

/-- Witness for claim C5 at a concrete three-line stream. -/
theorem c5_skipMalformed_witness :
    streamCompletion ⟨true, 200, "", some [c5Read]⟩ none
      = ([Ev.chunk "A", Ev.chunk "B", Ev.finish], Except.ok ()) := by
  have h1 : List.Forall₂ WfDataLine [dataMark ++ c5PayloadA] ["A"] :=
    List.Forall₂.cons ⟨c5PayloadA, c5JsonA, rfl, rfl, rfl, by decide⟩ List.Forall₂.nil
  have h2 : List.Forall₂ WfDataLine [dataMark ++ c5PayloadB] ["B"] :=
    List.Forall₂.cons ⟨c5PayloadB, c5JsonB, rfl, rfl, rfl, by decide⟩ List.Forall₂.nil
  exact c5_skipMalformed [c5Read] [dataMark ++ c5PayloadA] [dataMark ++ c5PayloadB]
    ["A"] ["B"] "data: \x7bnotjson" "\x7bnotjson" 200 "" rfl rfl rfl h1 h2

/-! ### Claim C6 -/

/-- Claim C6 (as stated) is false: it quantifies over any behaviour of the
supplied callbacks, but when `onFinish` itself throws, the exception
reaches the outermost catch (api.ts lines 104-107), which then invokes
`onError` — both callbacks fire in one session. -/
theorem c6_counterexample :
    streamCompletion ⟨true, 200, "", some []⟩ (some "boom")
      = ([Ev.finish, Ev.error "boom"], Except.error "boom") ∧
    (streamCompletion ⟨true, 200, "", some []⟩ (some "boom")).1.countP isFinishEv = 1 ∧
    (streamCompletion ⟨true, 200, "", some []⟩ (some "boom")).1.countP isErrorEv = 1 :=
  ⟨rfl, rfl, rfl⟩

/-- Claim C6, amended: provided the supplied `onFinish` returns normally,
at most one of `onFinish` and `onError` is invoked during a session,
whatever the response status and stream content. -/
theorem c6_amended (resp : StreamResponse) :
    (streamCompletion resp none).1.countP isFinishEv
      + (streamCompletion resp none).1.countP isErrorEv ≤ 1 := by
  obtain ⟨ok, st, bt, body⟩ := resp
  cases ok with
  | false => simp [streamCompletion, isFinishEv, isErrorEv, List.countP_cons]
  | true =>
    cases body with
    | none => simp [streamCompletion, isFinishEv, isErrorEv, List.countP_cons]
    | some reads =>
      rw [streamCompletion_ok_none]
      rw [List.countP_append, List.countP_append,
        countP_map_chunk isFinishEv (fun _ => rfl),
        countP_map_chunk isErrorEv (fun _ => rfl)]
      simp [List.countP_cons, isFinishEv, isErrorEv]

/-! ### Claim C3 -/

/-- An attachment with extracted content `"world"`. -/
def c3Attachment : Attachment :=
  { id := "a1", name := "f.txt", url := none, type := "text/plain", size := 5,
    content := some "world" }

/-- A user message with content `"hello"` carrying `c3Attachment`. -/
def c3Message : Message :=
  { id := "m1", role := Role.user, content := "hello", timestamp := 0,
    attachments := some [c3Attachment] }

/-- Claim C3 (as stated) is false: the POST serialization (api.ts lines
52-55) maps every message to its bare `content`; attachments are never
consulted.  For a message with content `"hello"` and an attachment with
extracted content `"world"`, the serialized content is `"hello"`, which
does not even contain `"world"` — so it equals `"hello" ++ sep ++ "world"`
for no separator. -/
theorem c3_counterexample :
    (serializeMessages [c3Message]).map ApiMessage.content = ["hello"] ∧
    c3Message.attachments = some [c3Attachment] ∧
    c3Attachment.content = some "world" ∧
    ¬ "world".data <:+: "hello".data :=
  ⟨rfl, rfl, rfl, by decide⟩

/-- Claim C3, amended: the serialized content of every message equals the
message's original text content unchanged; attachments (with or without
extracted content) contribute nothing to the POST body. -/
theorem c3_amended (msgs : List Message) (m : Message) (atts : Option (List Attachment)) :
    (serializeMessages msgs).map ApiMessage.content = msgs.map Message.content ∧
    (serializeMessages msgs).map ApiMessage.role = msgs.map Message.role ∧
    serializeMessages [{ m with attachments := atts }]
      = serializeMessages [{ m with attachments := none }] := by
  refine ⟨?_, ?_, rfl⟩ <;> simp [serializeMessages, List.map_map, Function.comp]

/-! ### Claim C7 -/

/-- A remote record whose `name` is present but empty. -/
def c7Remote : RemoteModel := { id := "m1", name := some "", context_length := some 8 }

/-- A remote record whose `context_length` is present but zero. -/
def c7RemoteB : RemoteModel := { id := "m2", name := some "x", context_length := some 0 }

/-- Claim C7 (as stated) is false: the mapping uses JavaScript `||`, so a
present-but-falsy remote field also loses against the default.  `c7Remote`
has `name = some ""` (present, and not equal to the id), yet its mapped
name is the id; `c7RemoteB` has `context_length = some 0` (present), yet
its mapped `maxTokens` is 4096.  "Exactly when absent" fails in both
places. -/
theorem c7_counterexample :
    c7Remote.name ≠ none ∧ c7Remote.name ≠ some "m1" ∧
    (mapRemoteModel c7Remote).name = c7Remote.id ∧
    c7RemoteB.context_length ≠ none ∧ c7RemoteB.context_length ≠ some 4096 ∧
    (mapRemoteModel c7RemoteB).maxTokens = 4096 :=
  ⟨by decide, by decide, rfl, by decide, by decide, rfl⟩

/-- Claim C7, amended: `fetchModels` maps each record to
`{id, name, maxTokens}`, where the name defaults to the id exactly when
the remote name is absent or empty, `maxTokens` defaults to 4096 exactly
when `context_length` is absent or zero, and a non-success HTTP status
makes the whole call throw. -/
theorem c7_amended (m : RemoteModel) (r : ModelsResponse) :
    (m.name = none ∨ m.name = some "" → (mapRemoteModel m).name = m.id) ∧
    (∀ s, m.name = some s → s ≠ "" → (mapRemoteModel m).name = s) ∧
    (m.context_length = none ∨ m.context_length = some 0 →
      (mapRemoteModel m).maxTokens = 4096) ∧
    (∀ n, m.context_length = some n → n ≠ 0 → (mapRemoteModel m).maxTokens = n) ∧
    (mapRemoteModel m).id = m.id ∧
    (r.ok = false →
      fetchModels r = Except.error ("Failed to fetch models: " ++ r.statusText)) ∧
    (r.ok = true → fetchModels r = Except.ok (r.data.map mapRemoteModel)) := by
  refine ⟨?_, ?_, ?_, ?_, rfl, ?_, ?_⟩
  · rintro (h | h) <;> simp [mapRemoteModel, jsOrStr, h]
  · intro s hs hne
    simp [mapRemoteModel, jsOrStr, hs, hne]
  · rintro (h | h) <;> simp [mapRemoteModel, jsOrNat, h]
  · intro n hn hne
    simp [mapRemoteModel, jsOrNat, hn, hne]
  · intro h
    simp [fetchModels, h]
  · intro h
    simp [fetchModels, h]

/-- Witness for the amended claim C7 at concrete records and a concrete
failing response. -/
theorem c7_amended_witness :
    (mapRemoteModel ⟨"id1", none, none⟩).name = "id1" ∧
    (mapRemoteModel ⟨"id1", none, none⟩).maxTokens = 4096 ∧
    (mapRemoteModel ⟨"id2", some "nm", some 9⟩).name = "nm" ∧
    (mapRemoteModel ⟨"id2", some "nm", some 9⟩).maxTokens = 9 ∧
    fetchModels ⟨false, "Unauthorized", []⟩
      = Except.error ("Failed to fetch models: " ++ "Unauthorized") := by
  have h1 := c7_amended ⟨"id1", none, none⟩ ⟨false, "Unauthorized", []⟩
  have h2 := c7_amended ⟨"id2", some "nm", some 9⟩ ⟨false, "Unauthorized", []⟩
  exact ⟨h1.1 (Or.inl rfl), h1.2.2.1 (Or.inl rfl),
    h2.2.1 "nm" rfl (by decide), h2.2.2.2.1 9 rfl (by decide),
    h1.2.2.2.2.2.1 rfl⟩

/-! ### Claim C2 -/

/-- Claim C2 is right about the intended behaviour but Chat.tsx violates
it: at the failing input (captured `currentMessage` of `""`, one delivered
chunk `"hi"`), the React state correctly accumulates to `"hi"`, yet the
content Chat.tsx commits is the stale captured `""`, not the chunk
concatenation.  The ChatLayout variant (part_006), which accumulates a
local `fullResponse`, commits the concatenation as the claim states. -/
theorem c2_staleCommit_eval :
    (tsxStreamOutcome "" ["hi"]).1 = joinChunks ["hi"] ∧
    joinChunks ["hi"] = "hi" ∧
    (tsxStreamOutcome "" ["hi"]).2 = "" ∧
    (tsxStreamOutcome "" ["hi"]).2 ≠ joinChunks ["hi"] ∧
    layoutCommittedContent ["hi"] = joinChunks ["hi"] :=
  ⟨rfl, rfl, rfl, by decide, rfl⟩

/-! ### Claim C8 -/

/-- Claim C8: the derived title equals the input when the input has at
most 30 characters, and the first 30 characters followed by `"..."` when
it has 31 or more; the commit step performs the derivation exactly when
the conversation held zero messages at submission time. -/
theorem c8_titleDerivation (content : String) (priorMessages : List Message) :
    (content.length ≤ 30 → deriveTitle content = content) ∧
    (31 ≤ content.length →
      deriveTitle content = (⟨content.data.take 30⟩ : String) ++ "...") ∧
    (commitTitleAction priorMessages content = some (deriveTitle content) ↔
      priorMessages = []) ∧
    (priorMessages ≠ [] → commitTitleAction priorMessages content = none) := by
  refine ⟨?_, ?_, ?_, ?_⟩
  · intro h
    rw [deriveTitle, if_neg (by omega)]
  · intro h
    rw [deriveTitle, if_pos (by omega)]
  · constructor
    · intro h
      by_cases hl : priorMessages.length = 0
      · exact List.length_eq_zero.mp hl
      · rw [commitTitleAction, if_neg hl] at h
        exact absurd h (by simp)
    · intro h
      subst h
      rfl
  · intro h
    rw [commitTitleAction, if_neg (fun hlen => h (List.length_eq_zero.mp hlen))]

/-- A 30-character input. -/
def title30 : String := "abcdefghijklmnopqrstuvwxyz0123"

/-- A 31-character input. -/
def title31 : String := "abcdefghijklmnopqrstuvwxyz01234"

/-- A stand-in prior message for the non-first-turn case. -/
def dummyMessage : Message :=
  { id := "u1", role := Role.user, content := "x", timestamp := 0, attachments := none }

/-- Witness for claim C8: the exact-30 input is kept unchanged, the
31-character input is truncated with the ellipsis marker, and the
derivation fires exactly on an empty prior history. -/
theorem c8_titleDerivation_witness :
    title30.length = 30 ∧ deriveTitle title30 = title30 ∧
    title31.length = 31 ∧ deriveTitle title31 = "abcdefghijklmnopqrstuvwxyz0123..." ∧
    commitTitleAction [] title30 = some title30 ∧
    commitTitleAction [dummyMessage] title30 = none := by
  have h30 := c8_titleDerivation title30 []
  have h31 := c8_titleDerivation title31 [dummyMessage]
  refine ⟨rfl, h30.1 (by decide), rfl, ?_, ?_, h31.2.2.2 (by simp)⟩
  · rw [h31.2.1 (by decide)]
    rfl
  · rw [(h30.2.2.1).mpr rfl, h30.1 (by decide)]

/-! ### Claim C9 -/

theorem get?_append_pair {α : Type} (xs : List α) (a b : α) :
    (xs ++ [a, b]).get? (xs.length + 1) = some b := by
  induction xs with
  | nil => rfl
  | cons x xs ih => simpa using ih

theorem set_append_pair {α : Type} (xs : List α) (a b v : α) :
    (xs ++ [a, b]).set (xs.length + 1) v = xs ++ [a, v] := by
  induction xs with
  | nil => rfl
  | cons x xs _ => simp

theorem length_append_pair {α : Type} (xs : List α) (a b : α) :
    (xs ++ [a, b]).length - 1 = xs.length + 1 := by
  simp

theorem overwriteContentAt_append_pair (xs : List Message) (a b : Message) (c : String) :
    overwriteContentAt (xs ++ [a, b]) ((xs ++ [a, b]).length - 1) c
      = xs ++ [a, { b with content := c }] := by
  rw [length_append_pair]
  unfold overwriteContentAt
  rw [get?_append_pair]
  exact set_append_pair xs a b { b with content := c }

/-- Claim C9: when the transport layer reports an error, the reconciliation
layer overwrites the placeholder assistant message — the last message of
the conversation — with the fixed apology string; the persistence of that
replacement never re-raises to the caller whatever its database outcome;
and the session ends not-generating. -/
theorem c9_errorPath (chat : Chat) (userMessage assistantMessage : Message) (now : Nat)
    (db : DbResult) :
    (handleStreamError (appendTurn chat userMessage assistantMessage now) db).chat.messages
      = chat.messages ++ [userMessage, { assistantMessage with content := apologyText }] ∧
    (handleStreamError (appendTurn chat userMessage assistantMessage now) db).reported = none ∧
    (handleStreamError (appendTurn chat userMessage assistantMessage now) db).isGenerating
      = false := by
  refine ⟨?_, ?_, rfl⟩
  · exact overwriteContentAt_append_pair chat.messages userMessage assistantMessage apologyText
  · cases db <;> rfl

/-! ### Claim C10 -/

theorem saveChat_cons (c x : Chat) (xs : List Chat) :
    saveChat c (x :: xs) = if x.id == c.id then c :: xs else x :: saveChat c xs := by
  simp only [saveChat, List.findIdx?_cons]
  cases hb : x.id == c.id with
  | true =>
    simp only [if_true]
    rfl
  | false =>
    simp only [if_false, List.findIdx?_start_succ]
    cases hf : List.findIdx? (fun y => y.id == c.id) xs with
    | none => simp [hf]
    | some i => simp [hf, List.set]

theorem mem_saveChat {y c : Chat} {xs : List Chat} (hy : y ∈ saveChat c xs) :
    y = c ∨ y ∈ xs := by
  induction xs with
  | nil =>
    simp only [saveChat, List.findIdx?_nil] at hy
    simp at hy
    exact Or.inl hy
  | cons x xs ih =>
    rw [saveChat_cons] at hy
    by_cases hb : (x.id == c.id) = true
    · rw [if_pos hb] at hy
      rcases List.mem_cons.mp hy with h | h
      · exact Or.inl h
      · exact Or.inr (List.mem_cons_of_mem _ h)
    · rw [if_neg hb] at hy
      rcases List.mem_cons.mp hy with h | h
      · exact Or.inr (h ▸ List.mem_cons_self _ _)
      · rcases ih h with h2 | h2
        · exact Or.inl h2
        · exact Or.inr (List.mem_cons_of_mem _ h2)

/-- Claim C10: on a stored list with pairwise-distinct ids, `saveChat`
leaves exactly one entry carrying the saved chat's id, that entry is the
saved chat itself, every entry with a different id is untouched and keeps
its relative order, and the ids stay pairwise distinct. -/
theorem c10_saveChat (chats : List Chat) (c : Chat)
    (hnd : (chats.map Chat.id).Nodup) :
    (saveChat c chats).countP (fun x => x.id == c.id) = 1 ∧
    (∀ x ∈ saveChat c chats, x.id = c.id → x = c) ∧
    (saveChat c chats).filter (fun x => x.id != c.id)
      = chats.filter (fun x => x.id != c.id) ∧
    ((saveChat c chats).map Chat.id).Nodup := by
  induction chats with
  | nil =>
    refine ⟨?_, ?_, ?_, ?_⟩
    · simp [saveChat, List.countP_cons]
    · intro x hx _
      simp only [saveChat, List.findIdx?_nil] at hx
      simpa using hx
    · simp [saveChat]
    · simp [saveChat]
  | cons x xs ih =>
    rw [List.map_cons, List.nodup_cons] at hnd
    obtain ⟨hx_not, hnd_xs⟩ := hnd
    obtain ⟨ih1, ih2, ih3, ih4⟩ := ih hnd_xs
    rw [saveChat_cons]
    by_cases hb : (x.id == c.id) = true
    · have hxc : x.id = c.id := by simpa using hb
      rw [if_pos hb]
      have hzero : xs.countP (fun y => y.id == c.id) = 0 := by
        rw [List.countP_eq_zero]
        intro y hy hyb
        exact hx_not (hxc ▸ (show y.id = c.id by simpa using hyb) ▸
          List.mem_map_of_mem Chat.id hy)
      refine ⟨?_, ?_, ?_, ?_⟩
      · simp [List.countP_cons, hzero]
      · intro y hy hid
        rcases List.mem_cons.mp hy with h | h
        · exact h
        · exact absurd (hxc ▸ hid ▸ List.mem_map_of_mem Chat.id h) hx_not
      · have hcf : (c.id != c.id) = false := by simp
        have hxf : (x.id != c.id) = false := by simp [hxc]
        simp [List.filter_cons, hcf, hxf]
      · rw [List.map_cons, List.nodup_cons]
        exact ⟨hxc ▸ hx_not, hnd_xs⟩
    · have hxc : x.id ≠ c.id := by simpa using hb
      rw [if_neg hb]
      refine ⟨?_, ?_, ?_, ?_⟩
      · have hbf : (x.id == c.id) = false := by simpa using hb
        simp [List.countP_cons, hbf, ih1]
      · intro y hy hid
        rcases List.mem_cons.mp hy with h | h
        · exact absurd (h ▸ hid) hxc
        · exact ih2 y h hid
      · have hxf : (x.id != c.id) = true := by simp [hxc]
        simp [List.filter_cons, hxf, ih3]
      · rw [List.map_cons, List.nodup_cons]
        refine ⟨?_, ih4⟩
        intro hmem
        obtain ⟨y, hy, hyid⟩ := List.mem_map.mp hmem
        rcases mem_saveChat hy with h | h
        · exact hxc (by rw [← hyid, h])
        · exact hx_not (hyid ▸ List.mem_map_of_mem Chat.id h)

/-- A stored chat with id `"c1"`. -/
def chatA : Chat :=
  { id := "c1", title := "A", messages := [], model := "m", createdAt := 0, updatedAt := 0 }

/-- A stored chat with id `"c2"`. -/
def chatB : Chat :=
  { id := "c2", title := "B", messages := [], model := "m", createdAt := 0, updatedAt := 0 }

/-- An updated version of `chatB` (same id, different fields). -/
def chatB2 : Chat :=
  { id := "c2", title := "B2", messages := [], model := "m", createdAt := 1, updatedAt := 1 }

/-- Witness for claim C10 on a concrete two-chat store. -/
theorem c10_saveChat_witness :
    ([chatA, chatB].map Chat.id).Nodup ∧
    saveChat chatB2 [chatA, chatB] = [chatA, chatB2] ∧
    (saveChat chatB2 [chatA, chatB]).countP (fun x => x.id == chatB2.id) = 1 ∧
    (saveChat chatB2 [chatA, chatB]).filter (fun x => x.id != chatB2.id)
      = [chatA, chatB].filter (fun x => x.id != chatB2.id) ∧
    ((saveChat chatB2 [chatA, chatB]).map Chat.id).Nodup := by
  have hnd : ([chatA, chatB].map Chat.id).Nodup := by decide
  have h := c10_saveChat [chatA, chatB] chatB2 hnd
  exact ⟨hnd, rfl, h.1, h.2.2.1, h.2.2.2⟩
